import Mathlib

/-!
Shallow embedding of the libdivecomputer core under verification:
`src/reefnet_sensuspro.c` (ReefNet Sensus Pro backend: dive extraction,
fingerprint handling, device operations), `src/suunto_vyper2.c` (Suunto
Vyper2 backend: packet exchange, error classification) and
`include/libdivecomputer/parser.h` (sample-flags bit layout).

Bytes are modelled as `Nat` (each in `0..255`), buffers as `List Nat`,
pointers into a buffer as `Nat` offsets, and the C `int` return values of
the serial transport as `Int` (with `-1` the distinguished hard-failure
value).  Functions from this repository that are declared but whose
definitions are not part of the sources (the checksum/array helpers and
the generic device layer) are modelled from the specification; each such
definition says so in its doc comment.
-/

/-- Status codes of the library (dc_status_t).  The hard I/O failure code
DC_STATUS_IO is rendered as `ioerr`. -/
inductive DcStatus where
  | success
  | unsupported
  | invalidargs
  | nomemory
  | ioerr
  | timeout
  | protocol
  | dataformat
  | cancelled
deriving DecidableEq, Repr

/-- The EXITCODE macro shared by both backends: a transport return of `-1`
is a hard I/O error, any other short count is a timeout. -/
def EXITCODE (rc : Int) : DcStatus :=
  if rc = -1 then .ioerr else .timeout

/-- Byte of a buffer at an offset (reads out of range yield 0; all reads
performed by the embedded code are in range in the scenarios proved). -/
def byteAt (data : List Nat) (i : Nat) : Nat :=
  data.getD i 0

/-- Modelled from the spec: `read_u16_le` of the checksum/codec contract
(array_uint16_le from the array helpers, absent from the sources). -/
def array_uint16_le (data : List Nat) (i : Nat) : Nat :=
  byteAt data i + 256 * byteAt data (i + 1)

/-- Modelled from the spec: `read_u16_be` of the checksum/codec contract
(array_uint16_be from the array helpers, absent from the sources). -/
def array_uint16_be (data : List Nat) (i : Nat) : Nat :=
  256 * byteAt data i + byteAt data (i + 1)

/-- Modelled from the spec: `read_u32_le` of the checksum/codec contract
(array_uint32_le from the array helpers, absent from the sources). -/
def array_uint32_le (data : List Nat) (i : Nat) : Nat :=
  byteAt data i + 256 * byteAt data (i + 1) + 65536 * byteAt data (i + 2) +
    16777216 * byteAt data (i + 3)

/-- Modelled from the spec: `xor8(bytes, seed)` of the checksum/codec
contract (checksum_xor_uint8, absent from the sources): the running XOR of
the bytes starting from the seed. -/
def checksum_xor_uint8 (data : List Nat) (seed : Nat) : Nat :=
  data.foldl Nat.xor seed

/-- Modelled from the spec: the 16-bit CRC variant of the checksum contract
(checksum_crc_ccitt_uint16, absent from the sources): CRC-CCITT with
polynomial 0x1021 and initial value 0xFFFF.  None of the claims depends on
the exact value. -/
def checksum_crc_ccitt_uint16 (data : List Nat) : Nat :=
  data.foldl
    (fun crc b =>
      (List.range 8).foldl
        (fun c _ =>
          if c &&& 32768 ≠ 0 then ((c <<< 1) ^^^ 4129) % 65536 else (c <<< 1) % 65536)
        ((crc ^^^ (b <<< 8)) % 65536))
    65535

/-- Modelled from the spec: the handshake frame payload size of the Sensus
Pro (REEFNET_SENSUSPRO_HANDSHAKE_SIZE, from the header absent from the
sources): model (1) + firmware (1) + serial (2, at offset 4) + device time
(4, at offset 6) = 10 bytes. -/
def REEFNET_SENSUSPRO_HANDSHAKE_SIZE : Nat := 10

/-- Modelled from the spec: the full memory dump size of the Sensus Pro
(REEFNET_SENSUSPRO_MEMORY_SIZE, from the header absent from the sources).
None of the claims depends on the exact value. -/
def REEFNET_SENSUSPRO_MEMORY_SIZE : Nat := 56320

/-- Mutable protocol state of a ReefNet Sensus Pro handle
(reefnet_sensuspro_device_t minus the transport handle): fingerprint
cutoff timestamp, clock calibration pair, stored handshake payload. -/
structure ReefnetState where
  timestamp : Nat
  devtime : Nat
  systime : Int
  handshake : List Nat
deriving DecidableEq, Repr

/-- State a freshly opened Sensus Pro handle carries
(reefnet_sensuspro_device_open defaults: timestamp 0, devtime 0,
systime (dc_ticks_t)(-1), handshake zeroed). -/
def reefnetFresh : ReefnetState :=
  ⟨0, 0, -1, List.replicate REEFNET_SENSUSPRO_HANDSHAKE_SIZE 0⟩

/-- Device handle.  The constructor models the backend-table pointer
stored in the base device (two distinct concrete families occur in the
sources); the `Bool` models the cooperative cancellation flag of the
generic device layer (spec section 5). -/
inductive Handle where
  | reefnet (cancelled : Bool) (st : ReefnetState)
  | vyper2 (cancelled : Bool)
deriving DecidableEq, Repr

/-- Identity check of the reefnet backend (device_is_reefnet_sensuspro):
NULL is rejected, and the backend table reference must be the reefnet one. -/
def device_is_reefnet_sensuspro (abstract : Option Handle) : Bool :=
  match abstract with
  | some (.reefnet _ _) => true
  | _ => false

/-- Identity check of the vyper2 backend (device_is_suunto_vyper2). -/
def device_is_suunto_vyper2 (abstract : Option Handle) : Bool :=
  match abstract with
  | some (.vyper2 _) => true
  | _ => false

/-- Modelled from the spec: device_is_cancelled of the generic device
layer (absent from the sources) reads the cooperative
cancellation flag; a NULL handle is not cancelled. -/
def device_is_cancelled (abstract : Option Handle) : Bool :=
  match abstract with
  | some (.reefnet c _) => c
  | some (.vyper2 c) => c
  | none => false

/-- Fingerprint cutoff the extraction applies: the timestamp stored on the
device when one is passed (the `device && timestamp <= device->timestamp`
test), nothing when the handle is NULL. -/
def reefnetTimestampOf (abstract : Option Handle) : Option Nat :=
  match abstract with
  | some (.reefnet _ st) => some st.timestamp
  | _ => none

/-- Start-marker test of the extraction scan: the four bytes from `p` all
zero (memcmp against the header pattern). -/
def headerAt (data : List Nat) (p : Nat) : Bool :=
  byteAt data p == 0 && byteAt data (p + 1) == 0 &&
  byteAt data (p + 2) == 0 && byteAt data (p + 3) == 0

/-- Stop-marker test of the extraction scan: the two bytes from `p` both
0xFF (memcmp against the footer pattern). -/
def footerAt (data : List Nat) (p : Nat) : Bool :=
  byteAt data p == 255 && byteAt data (p + 1) == 255

/-- Forward scan for the stop marker: from `offset`, while
`offset + 2 <= previous`, return the first offset whose two bytes are
0xFF 0xFF (the inner while loop of reefnet_sensuspro_extract_dives). -/
def findFooter (data : List Nat) (offset previous : Nat) : Option Nat :=
  if offset + 2 ≤ previous then
    if footerAt data offset then some offset
    else findFooter data (offset + 1) previous
  else none
termination_by previous - offset
decreasing_by omega

/-- Cutoff test of the extraction scan (`device && timestamp <=
device->timestamp`): no device means no cutoff. -/
def cutoffHit (cutoff : Option Nat) (timestamp : Nat) : Bool :=
  match cutoff with
  | none => false
  | some t => timestamp ≤ t

/-- One callback invocation as delivered by the extraction: start offset
of the record, its size, offset of its fingerprint, fingerprint size. -/
abbrev DiveCall := Nat × Nat × Nat × Nat

/-- Outer backward scan of reefnet_sensuspro_extract_dives.  `previous` is
the exclusive upper bound left by the last consumed record, `current` the
scanning cursor; each iteration decrements the cursor, checks for the
zero header, and on a match scans forward for the footer, applies the
cutoff, and invokes the callback.  The result carries the status and the
list of callback invocations in order.  A NULL callback (`none`) skips the
invocation and continues, as the C `callback && !callback(...)` does. -/
def extractLoop (data : List Nat) (cb : Option (Nat → Nat → Nat → Nat → Bool))
    (cutoff : Option Nat) : Nat → Nat → DcStatus × List DiveCall
  | _, 0 => (.success, [])
  | previous, c + 1 =>
    if headerAt data c then
      match findFooter data (c + 10) previous with
      | none => (.dataformat, [])
      | some off =>
        if cutoffHit cutoff (array_uint32_le data (c + 6)) then (.success, [])
        else
          match cb with
          | none => extractLoop data none cutoff c (c - 4)
          | some f =>
            if f c (off + 2 - c) (c + 6) 4 then
              let r := extractLoop data (some f) cutoff c (c - 4)
              (r.1, (c, off + 2 - c, c + 6, 4) :: r.2)
            else (.success, [(c, off + 2 - c, c + 6, 4)])
    else extractLoop data cb cutoff previous c
termination_by _ c => c
decreasing_by all_goals omega

/-- reefnet_sensuspro_extract_dives: reject a non-NULL handle of another
family, then run the backward scan with `previous = size` and
`current = size - 4` (0 when the buffer is shorter than a header). -/
def reefnet_sensuspro_extract_dives (abstract : Option Handle) (data : List Nat)
    (cb : Option (Nat → Nat → Nat → Nat → Bool)) : DcStatus × List DiveCall :=
  if abstract.isSome && !device_is_reefnet_sensuspro abstract then (.invalidargs, [])
  else
    extractLoop data cb (reefnetTimestampOf abstract) data.length
      (if 4 ≤ data.length then data.length - 4 else 0)

/-- Callback that always continues. -/
def cbTrue : Nat → Nat → Nat → Nat → Bool := fun _ _ _ _ => true

/-- Timestamp embedded in a dive record: the 4-byte little-endian value at
offset 6 from the record start (and likewise its fingerprint bytes). -/
def recTs (r : List Nat) : Nat :=
  array_uint32_le r 6

/-- Well-formed dive record with respect to the marker convention: at
least 12 bytes (4-byte zero header, timestamp at offset 6, 2-byte footer),
the all-zero header at offset 0 and nowhere else, and the 0xFF 0xFF footer
as the first footer match at or after offset 10, sitting at the very end. -/
def wfRec (r : List Nat) : Bool :=
  decide (12 ≤ r.length) && headerAt r 0 && footerAt r (r.length - 2) &&
  ((List.range r.length).all fun q =>
    decide (q = 0) || !decide (q + 4 ≤ r.length) || !headerAt r q) &&
  ((List.range r.length).all fun q =>
    decide (q < 10) || !decide (q + 2 < r.length) || !footerAt r q)

/-- Concatenation of a newest-first record list in buffer order (oldest at
offset 0, newest at the end). -/
def flattenRev (l : List (List Nat)) : List Nat :=
  l.reverse.flatten

/-- Total length of a list of records. -/
def totalLen (l : List (List Nat)) : Nat :=
  (l.map List.length).sum

/-- Expected callback invocations for a newest-first record list whose
concatenation ends at offset `T`: each record yields its byte range and
its 4-byte fingerprint range at offset 6 from its start. -/
def callsFrom : List (List Nat) → Nat → List DiveCall
  | [], _ => []
  | r :: rest, T =>
    (T - r.length, r.length, T - r.length + 6, 4) :: callsFrom rest (T - r.length)

/-! ### Basic facts about the extraction scan -/

theorem extractLoop_zero (data : List Nat) (cb : Option (Nat → Nat → Nat → Nat → Bool))
    (cutoff : Option Nat) (previous : Nat) :
    extractLoop data cb cutoff previous 0 = (.success, []) := by
  simp [extractLoop]

theorem extractLoop_succ (data : List Nat) (cb : Option (Nat → Nat → Nat → Nat → Bool))
    (cutoff : Option Nat) (previous c : Nat) :
    extractLoop data cb cutoff previous (c + 1) =
      if headerAt data c then
        match findFooter data (c + 10) previous with
        | none => (.dataformat, [])
        | some off =>
          if cutoffHit cutoff (array_uint32_le data (c + 6)) then (.success, [])
          else
            match cb with
            | none => extractLoop data none cutoff c (c - 4)
            | some f =>
              if f c (off + 2 - c) (c + 6) 4 then
                let r := extractLoop data (some f) cutoff c (c - 4)
                (r.1, (c, off + 2 - c, c + 6, 4) :: r.2)
              else (.success, [(c, off + 2 - c, c + 6, 4)])
      else extractLoop data cb cutoff previous c := by
  rw [extractLoop]

theorem extractLoop_skip (data : List Nat) (cb : Option (Nat → Nat → Nat → Nat → Bool))
    (cutoff : Option Nat) (previous : Nat) :
    ∀ c t, t ≤ c → (∀ p, t ≤ p → p < c → headerAt data p = false) →
      extractLoop data cb cutoff previous c = extractLoop data cb cutoff previous t := by
  intro c
  induction c with
  | zero =>
    intro t ht _
    have : t = 0 := by omega
    rw [this]
  | succ c ih =>
    intro t ht hno
    rcases Nat.eq_or_lt_of_le ht with h | h
    · rw [h]
    · have hc : headerAt data c = false := hno c (by omega) (by omega)
      rw [extractLoop_succ, hc]
      simp only [Bool.false_eq_true, if_false]
      exact ih t (by omega) fun p hp hpc => hno p hp (by omega)

theorem findFooter_eq_none (data : List Nat) (previous : Nat) :
    ∀ s, (∀ p, s ≤ p → p + 2 ≤ previous → footerAt data p = false) →
      findFooter data s previous = none := by
  have H : ∀ n s, previous - s ≤ n →
      (∀ p, s ≤ p → p + 2 ≤ previous → footerAt data p = false) →
      findFooter data s previous = none := by
    intro n
    induction n with
    | zero =>
      intro s hn _
      rw [findFooter]
      simp only [if_neg (by omega : ¬ s + 2 ≤ previous)]
    | succ n ih =>
      intro s hn hno
      rw [findFooter]
      by_cases hs : s + 2 ≤ previous
      · rw [if_pos hs, hno s le_rfl hs]
        simp only [Bool.false_eq_true, if_false]
        exact ih (s + 1) (by omega) fun p hp h2 => hno p (by omega) h2
      · rw [if_neg hs]
  exact fun s => H (previous - s) s le_rfl

theorem findFooter_eq_some (data : List Nat) (previous : Nat) :
    ∀ e s, s ≤ e → e + 2 ≤ previous →
      (∀ p, s ≤ p → p < e → footerAt data p = false) → footerAt data e = true →
      findFooter data s previous = some e := by
  intro e
  have H : ∀ n s, e - s ≤ n → s ≤ e → e + 2 ≤ previous →
      (∀ p, s ≤ p → p < e → footerAt data p = false) → footerAt data e = true →
      findFooter data s previous = some e := by
    intro n
    induction n with
    | zero =>
      intro s hn hse he _ hfe
      have : s = e := by omega
      subst this
      rw [findFooter, if_pos he, hfe]
      simp
    | succ n ih =>
      intro s hn hse he hno hfe
      rcases Nat.eq_or_lt_of_le hse with h | h
      · subst h
        rw [findFooter, if_pos he, hfe]
        simp
      · rw [findFooter, if_pos (by omega : s + 2 ≤ previous)]
        rw [hno s le_rfl (by omega)]
        simp only [Bool.false_eq_true, if_false]
        exact ih (s + 1) (by omega) (by omega) he (fun p hp h2 => hno p (by omega) h2) hfe
  exact fun s => H (e - s) s le_rfl

/-! ### Reading bytes of an embedded record -/

theorem byteAt_append_left (l r : List Nat) (i : Nat) (h : i < l.length) :
    byteAt (l ++ r) i = byteAt l i := by
  unfold byteAt
  exact List.getD_append _ _ _ _ h

theorem byteAt_append_right (l r : List Nat) (q : Nat) :
    byteAt (l ++ r) (l.length + q) = byteAt r q := by
  unfold byteAt
  rw [List.getD_append_right _ _ _ _ (Nat.le_add_right _ _), Nat.add_sub_cancel_left]

theorem byte_data_of_rec {data pre r : List Nat}
    (hag : ∀ i, i < pre.length + r.length → byteAt data i = byteAt (pre ++ r) i)
    (q : Nat) (hq : q < r.length) : byteAt data (pre.length + q) = byteAt r q := by
  rw [hag _ (by omega), byteAt_append_right]

theorem headerAt_shift {data pre r : List Nat}
    (hag : ∀ i, i < pre.length + r.length → byteAt data i = byteAt (pre ++ r) i)
    (q : Nat) (hq : q + 4 ≤ r.length) :
    headerAt data (pre.length + q) = headerAt r q := by
  unfold headerAt
  rw [show pre.length + q + 1 = pre.length + (q + 1) by omega,
    show pre.length + q + 2 = pre.length + (q + 2) by omega,
    show pre.length + q + 3 = pre.length + (q + 3) by omega,
    byte_data_of_rec hag q (by omega), byte_data_of_rec hag (q + 1) (by omega),
    byte_data_of_rec hag (q + 2) (by omega), byte_data_of_rec hag (q + 3) (by omega)]

theorem footerAt_shift {data pre r : List Nat}
    (hag : ∀ i, i < pre.length + r.length → byteAt data i = byteAt (pre ++ r) i)
    (q : Nat) (hq : q + 2 ≤ r.length) :
    footerAt data (pre.length + q) = footerAt r q := by
  unfold footerAt
  rw [show pre.length + q + 1 = pre.length + (q + 1) by omega,
    byte_data_of_rec hag q (by omega), byte_data_of_rec hag (q + 1) (by omega)]

theorem u32le_shift {data pre r : List Nat}
    (hag : ∀ i, i < pre.length + r.length → byteAt data i = byteAt (pre ++ r) i)
    (q : Nat) (hq : q + 4 ≤ r.length) :
    array_uint32_le data (pre.length + q) = array_uint32_le r q := by
  unfold array_uint32_le
  rw [show pre.length + q + 1 = pre.length + (q + 1) by omega,
    show pre.length + q + 2 = pre.length + (q + 2) by omega,
    show pre.length + q + 3 = pre.length + (q + 3) by omega,
    byte_data_of_rec hag q (by omega), byte_data_of_rec hag (q + 1) (by omega),
    byte_data_of_rec hag (q + 2) (by omega), byte_data_of_rec hag (q + 3) (by omega)]

/-! ### Facts extracted from well-formedness of a record -/

theorem wfRec_len {r : List Nat} (h : wfRec r = true) : 12 ≤ r.length := by
  unfold wfRec at h
  simp only [Bool.and_eq_true, decide_eq_true_eq] at h
  exact h.1.1.1.1

theorem wfRec_header {r : List Nat} (h : wfRec r = true) : headerAt r 0 = true := by
  unfold wfRec at h
  simp only [Bool.and_eq_true] at h
  exact h.1.1.1.2

theorem wfRec_footer {r : List Nat} (h : wfRec r = true) :
    footerAt r (r.length - 2) = true := by
  unfold wfRec at h
  simp only [Bool.and_eq_true] at h
  exact h.1.1.2

theorem wfRec_noHdr {r : List Nat} (h : wfRec r = true) (q : Nat)
    (h1 : 1 ≤ q) (h2 : q + 4 ≤ r.length) : headerAt r q = false := by
  unfold wfRec at h
  simp only [Bool.and_eq_true, List.all_eq_true, List.mem_range] at h
  have h5 := h.1.2 q (by omega)
  by_cases hq : headerAt r q = true
  · rw [hq] at h5
    simp at h5
    omega
  · simpa using hq

theorem wfRec_noFtr {r : List Nat} (h : wfRec r = true) (q : Nat)
    (h1 : 10 ≤ q) (h2 : q + 2 < r.length) : footerAt r q = false := by
  unfold wfRec at h
  simp only [Bool.and_eq_true, List.all_eq_true, List.mem_range] at h
  have h5 := h.2 q (by omega)
  by_cases hq : footerAt r q = true
  · rw [hq] at h5
    simp at h5
    omega
  · simpa using hq

theorem wfRec_ts_pos {r : List Nat} (h : wfRec r = true) : 1 ≤ recTs r := by
  by_contra hc
  have hz : recTs r = 0 := by omega
  unfold recTs array_uint32_le at hz
  norm_num at hz
  have h6 : byteAt r 6 = 0 := by omega
  have h7 : byteAt r 7 = 0 := by omega
  have h8 : byteAt r 8 = 0 := by omega
  have h9 : byteAt r 9 = 0 := by omega
  have hh : headerAt r 6 = true := by
    unfold headerAt
    norm_num [h6, h7, h8, h9]
  have hlen := wfRec_len h
  have hf := wfRec_noHdr h 6 (by omega) (by omega)
  rw [hh] at hf
  simp at hf

/-! ### Buffer decomposition facts -/

theorem flattenRev_cons (r : List Nat) (rest : List (List Nat)) :
    flattenRev (r :: rest) = flattenRev rest ++ r := by
  simp [flattenRev]

theorem flattenRev_length (l : List (List Nat)) :
    (flattenRev l).length = totalLen l := by
  simp [flattenRev, totalLen, List.length_flatten, List.map_reverse, List.sum_reverse]

theorem totalLen_cons (r : List Nat) (rest : List (List Nat)) :
    totalLen (r :: rest) = r.length + totalLen rest := by
  simp [totalLen]

/-! ### The processing of one well-formed record at the top of the
unconsumed region -/

theorem extract_step (data pre r : List Nat) (cutoff : Option Nat)
    (hwf : wfRec r = true)
    (hag : ∀ i, i < pre.length + r.length → byteAt data i = byteAt (pre ++ r) i) :
    extractLoop data (some cbTrue) cutoff (pre.length + r.length)
        (pre.length + r.length - 4) =
      if cutoffHit cutoff (recTs r) then (.success, [])
      else
        ((extractLoop data (some cbTrue) cutoff pre.length (pre.length - 4)).1,
          (pre.length, r.length, pre.length + 6, 4) ::
            (extractLoop data (some cbTrue) cutoff pre.length (pre.length - 4)).2) := by
  have hL := wfRec_len hwf
  -- scan down from the top with no start-marker match until the record start
  have hskip : extractLoop data (some cbTrue) cutoff (pre.length + r.length)
      (pre.length + r.length - 4) =
      extractLoop data (some cbTrue) cutoff (pre.length + r.length) (pre.length + 1) := by
    apply extractLoop_skip data (some cbTrue) cutoff (pre.length + r.length)
      (pre.length + r.length - 4) (pre.length + 1) (by omega)
    intro p hp1 hp2
    obtain ⟨q, rfl⟩ : ∃ q, p = pre.length + q := ⟨p - pre.length, by omega⟩
    rw [headerAt_shift hag q (by omega)]
    exact wfRec_noHdr hwf q (by omega) (by omega)
  rw [hskip, extractLoop_succ]
  have hhdr : headerAt data pre.length = true := by
    have := headerAt_shift hag 0 (by omega)
    rw [Nat.add_zero] at this
    rw [this]
    exact wfRec_header hwf
  rw [hhdr]
  simp only [if_true]
  have hff : findFooter data (pre.length + 10) (pre.length + r.length) =
      some (pre.length + (r.length - 2)) := by
    apply findFooter_eq_some data (pre.length + r.length) (pre.length + (r.length - 2))
      (pre.length + 10) (by omega) (by omega)
    · intro p hp1 hp2
      obtain ⟨q, rfl⟩ : ∃ q, p = pre.length + q := ⟨p - pre.length, by omega⟩
      rw [footerAt_shift hag q (by omega)]
      exact wfRec_noFtr hwf q (by omega) (by omega)
    · rw [footerAt_shift hag (r.length - 2) (by omega)]
      exact wfRec_footer hwf
  rw [hff]
  have hts : array_uint32_le data (pre.length + 6) = recTs r := by
    rw [u32le_shift hag 6 (by omega)]
    rfl
  rw [hts]
  by_cases hcut : cutoffHit cutoff (recTs r) = true
  · rw [hcut]
    simp
  · rw [Bool.not_eq_true] at hcut
    rw [hcut]
    simp only [Bool.false_eq_true, if_false, cbTrue, if_true]
    rw [show pre.length + (r.length - 2) + 2 - pre.length = r.length by omega]

/-! ## Main extraction lemma

Processing a newest-first list of well-formed records sitting on top of an
arbitrary already-consumed region `base`: every record that does not hit
the cutoff is delivered newest-first with its correct byte range and
fingerprint range, and the scan then continues below `base.length`. -/

theorem extract_run (cutoff : Option Nat) (base data : List Nat) :
    ∀ rrecs : List (List Nat),
    (∀ r ∈ rrecs, wfRec r = true) →
    (∀ r ∈ rrecs, cutoffHit cutoff (recTs r) = false) →
    (∀ i, i < base.length + totalLen rrecs →
      byteAt data i = byteAt (base ++ flattenRev rrecs) i) →
    extractLoop data (some cbTrue) cutoff (base.length + totalLen rrecs)
        (base.length + totalLen rrecs - 4) =
      ((extractLoop data (some cbTrue) cutoff base.length (base.length - 4)).1,
        callsFrom rrecs (base.length + totalLen rrecs) ++
          (extractLoop data (some cbTrue) cutoff base.length (base.length - 4)).2)
  | [], _, _, _ => by
    simp [totalLen, callsFrom]
  | r :: rest, hwf, hnh, hag => by
    have hLr := wfRec_len (hwf r (List.mem_cons_self r rest))
    have hlen : (base ++ flattenRev rest).length = base.length + totalLen rest := by
      simp [flattenRev_length]
    have hassoc : base ++ flattenRev (r :: rest) = (base ++ flattenRev rest) ++ r := by
      rw [flattenRev_cons, List.append_assoc]
    have htot : base.length + totalLen (r :: rest) =
        (base ++ flattenRev rest).length + r.length := by
      rw [hlen, totalLen_cons]; omega
    have hag' : ∀ i, i < (base ++ flattenRev rest).length + r.length →
        byteAt data i = byteAt ((base ++ flattenRev rest) ++ r) i := by
      intro i hi
      rw [← hassoc]
      exact hag i (by omega)
    have step := extract_step data (base ++ flattenRev rest) r cutoff
      (hwf r (List.mem_cons_self r rest)) hag'
    rw [hnh r (List.mem_cons_self r rest)] at step
    simp only [Bool.false_eq_true, if_false] at step
    have hagrest : ∀ i, i < base.length + totalLen rest →
        byteAt data i = byteAt (base ++ flattenRev rest) i := by
      intro i hi
      rw [hag i (by rw [totalLen_cons]; omega), hassoc,
        byteAt_append_left _ _ _ (by omega)]
    have ih := extract_run cutoff base data rest
      (fun x hx => hwf x (List.mem_cons_of_mem _ hx))
      (fun x hx => hnh x (List.mem_cons_of_mem _ hx)) hagrest
    rw [htot, step, hlen, ih]
    have e1 : base.length + totalLen rest + r.length - r.length =
        base.length + totalLen rest := by omega
    simp only [callsFrom, e1, List.cons_append]

theorem flattenRev_append (a b : List (List Nat)) :
    flattenRev (a ++ b) = flattenRev b ++ flattenRev a := by
  simp [flattenRev]

theorem totalLen_append (a b : List (List Nat)) :
    totalLen (a ++ b) = totalLen a + totalLen b := by
  simp [totalLen]

theorem init_current (n : Nat) : (if 4 ≤ n then n - 4 else 0) = n - 4 := by
  by_cases h : 4 ≤ n
  · simp [h]
  · simp [h]; omega

theorem callsFrom_length (l : List (List Nat)) (T : Nat) :
    (callsFrom l T).length = l.length := by
  induction l generalizing T with
  | nil => rfl
  | cons r rest ih => simp [callsFrom, ih]

/-- Extraction over a buffer that is exactly a newest-first list of
well-formed records none of which hits the cutoff: all of them are
delivered, newest (highest offset) first. -/
theorem extract_full (cutoff : Option Nat) (rrecs : List (List Nat))
    (hwf : ∀ r ∈ rrecs, wfRec r = true)
    (hnh : ∀ r ∈ rrecs, cutoffHit cutoff (recTs r) = false) :
    extractLoop (flattenRev rrecs) (some cbTrue) cutoff (totalLen rrecs)
        (totalLen rrecs - 4) =
      (.success, callsFrom rrecs (totalLen rrecs)) := by
  have h := extract_run cutoff [] (flattenRev rrecs) rrecs hwf hnh
    (fun i _ => rfl)
  simpa [extractLoop_zero] using h

/-- Extraction over a buffer of well-formed records where the cutoff hits
record `s`: the records above `s` are delivered, then the scan stops with
success, excluding `s` and everything below it. -/
theorem extract_full_stop (cutoff : Option Nat) (kept : List (List Nat))
    (s : List Nat) (older : List (List Nat))
    (hwfk : ∀ r ∈ kept, wfRec r = true)
    (hnh : ∀ r ∈ kept, cutoffHit cutoff (recTs r) = false)
    (hwfs : wfRec s = true)
    (hhit : cutoffHit cutoff (recTs s) = true) :
    extractLoop (flattenRev (kept ++ s :: older)) (some cbTrue) cutoff
        (totalLen (kept ++ s :: older)) (totalLen (kept ++ s :: older) - 4) =
      (.success, callsFrom kept (totalLen (kept ++ s :: older))) := by
  set base := flattenRev (s :: older) with hbase
  have hdata : flattenRev (kept ++ s :: older) = base ++ flattenRev kept := by
    rw [flattenRev_append]
  have hblen : base.length = s.length + totalLen older := by
    rw [hbase, flattenRev_length, totalLen_cons]
  have htot : totalLen (kept ++ s :: older) = base.length + totalLen kept := by
    rw [totalLen_append, totalLen_cons, hblen]; omega
  have hrun := extract_run cutoff base (flattenRev (kept ++ s :: older)) kept hwfk hnh
    (by intro i hi; rw [hdata])
  have hpre : base = flattenRev older ++ s := by
    rw [hbase, flattenRev_cons]
  have hplen : (flattenRev older).length + s.length = base.length := by
    rw [hblen, flattenRev_length]; omega
  have hstep := extract_step (flattenRev (kept ++ s :: older)) (flattenRev older) s
    cutoff hwfs
    (by
      intro i hi
      rw [hdata, byteAt_append_left _ _ _ (by omega), hpre])
  rw [hhit] at hstep
  simp only [eq_self_iff_true, if_true] at hstep
  rw [hplen] at hstep
  rw [htot, hrun, hstep]
  simp

/-- When the buffer holds no stop marker at any offset at or above 10
below `previous`, any start-marker match below the cursor forces the
data-format error with no callback invocation. -/
theorem extractLoop_nofooter (data : List Nat)
    (cb : Option (Nat → Nat → Nat → Nat → Bool)) (cutoff : Option Nat)
    (previous : Nat)
    (hnf : ∀ p, 10 ≤ p → p + 2 ≤ previous → footerAt data p = false) :
    ∀ c, (∃ p, p < c ∧ headerAt data p = true) →
      extractLoop data cb cutoff previous c = (.dataformat, []) := by
  intro c
  induction c with
  | zero =>
    rintro ⟨p, hp, -⟩
    omega
  | succ c ih =>
    rintro ⟨p, hp, hhdr⟩
    rw [extractLoop_succ]
    by_cases hc : headerAt data c = true
    · rw [hc]
      simp only [if_true]
      rw [findFooter_eq_none data previous (c + 10)
        (fun q hq h2 => hnf q (by omega) h2)]
    · rw [Bool.not_eq_true] at hc
      rw [hc]
      simp only [Bool.false_eq_true, if_false]
      exact ih ⟨p, by
        rcases Nat.lt_succ_iff_lt_or_eq.mp hp with h | h
        · exact ⟨h, hhdr⟩
        · subst h; rw [hhdr] at hc; cases hc⟩

/-! ## Device operations of the ReefNet Sensus Pro backend

Transport interactions are modelled by an environment holding the values
the serial layer would return; `Int` return counts use `-1` as the hard
failure.  Event emission (clock/devinfo/progress) carries no data back
into the functions and is not modelled. -/

/-- Serial/transport responses consumed by the reefnet operations. -/
structure ReefEnv where
  handshakeRc : Int
  handshakeBytes : List Nat
  now : Int
  sendRc : Int
  intervalRc : Int
  dumpReads : Nat → Int
  dumpBytes : List Nat
  closeRc : Int
  allocOk : Bool

/-- reefnet_sensuspro_device_set_fingerprint: family guard, then a size of
0 or 4 is required; a 4-byte fingerprint stores its little-endian value as
the cutoff timestamp, an empty one clears the cutoff. -/
def reefnet_sensuspro_device_set_fingerprint (abstract : Option Handle)
    (data : List Nat) (size : Nat) : DcStatus × Option Handle :=
  if !device_is_reefnet_sensuspro abstract then (.invalidargs, abstract)
  else if size ≠ 0 ∧ size ≠ 4 then (.invalidargs, abstract)
  else
    match abstract with
    | some (.reefnet c st) =>
      if size ≠ 0 then
        (.success, some (.reefnet c { st with timestamp := array_uint32_le data 0 }))
      else (.success, some (.reefnet c { st with timestamp := 0 }))
    | _ => (.invalidargs, abstract)

/-- reefnet_sensuspro_device_set_timestamp: family guard, then store the
timestamp. -/
def reefnet_sensuspro_device_set_timestamp (abstract : Option Handle)
    (timestamp : Nat) : DcStatus × Option Handle :=
  if !device_is_reefnet_sensuspro abstract then (.invalidargs, abstract)
  else
    match abstract with
    | some (.reefnet c st) =>
      (.success, some (.reefnet c { st with timestamp := timestamp }))
    | _ => (.invalidargs, abstract)

/-- reefnet_sensuspro_device_get_handshake: family guard, buffer size
check, then copy the stored handshake out. -/
def reefnet_sensuspro_device_get_handshake (abstract : Option Handle)
    (size : Nat) : DcStatus × Option (List Nat) :=
  if !device_is_reefnet_sensuspro abstract then (.invalidargs, none)
  else if size < REEFNET_SENSUSPRO_HANDSHAKE_SIZE then (.invalidargs, none)
  else
    match abstract with
    | some (.reefnet _ st) =>
      (.success, some (st.handshake.take REEFNET_SENSUSPRO_HANDSHAKE_SIZE))
    | _ => (.invalidargs, none)

/-- reefnet_sensuspro_device_close: family guard, then release the
transport (a serial_close failure is a hard I/O error). -/
def reefnet_sensuspro_device_close (abstract : Option Handle)
    (env : ReefEnv) : DcStatus :=
  if !device_is_reefnet_sensuspro abstract then .invalidargs
  else if env.closeRc = -1 then .ioerr else .success

/-- reefnet_sensuspro_handshake: assert break, read the handshake frame
plus its 2-byte CRC trailer, clear break, verify the CRC, then record the
clock pair and the handshake payload on the device. -/
def reefnet_sensuspro_handshake (st : ReefnetState) (env : ReefEnv) :
    DcStatus × ReefnetState :=
  if env.handshakeRc ≠ ((REEFNET_SENSUSPRO_HANDSHAKE_SIZE + 2 : Nat) : Int) then
    (EXITCODE env.handshakeRc, st)
  else
    let hs := env.handshakeBytes
    let crc := array_uint16_le hs REEFNET_SENSUSPRO_HANDSHAKE_SIZE
    let ccrc := checksum_crc_ccitt_uint16 (hs.take REEFNET_SENSUSPRO_HANDSHAKE_SIZE)
    if crc ≠ ccrc then (.protocol, st)
    else
      (.success,
        { st with
          systime := env.now
          devtime := array_uint32_le hs 6
          handshake := hs.take REEFNET_SENSUSPRO_HANDSHAKE_SIZE })

/-- reefnet_sensuspro_send: wake the device with a handshake, then write
the single command byte (exact count required). -/
def reefnet_sensuspro_send (st : ReefnetState) (env : ReefEnv) :
    DcStatus × ReefnetState :=
  let r := reefnet_sensuspro_handshake st env
  if r.1 ≠ .success then r
  else if env.sendRc ≠ (1 : Int) then (EXITCODE env.sendRc, r.2)
  else (.success, r.2)

/-- Read loop of reefnet_sensuspro_device_dump: pull the full memory image
plus its 2-byte CRC in chunks of at most 256 bytes; a short chunk aborts
with the transport classification. -/
def reefnet_sensuspro_read_memory (reads : Nat → Int) (nbytes iter : Nat) :
    DcStatus :=
  if nbytes < REEFNET_SENSUSPRO_MEMORY_SIZE + 2 then
    let len := min 256 (REEFNET_SENSUSPRO_MEMORY_SIZE + 2 - nbytes)
    if reads iter ≠ (len : Int) then EXITCODE (reads iter)
    else reefnet_sensuspro_read_memory reads (nbytes + len) (iter + 1)
  else .success
termination_by REEFNET_SENSUSPRO_MEMORY_SIZE + 2 - nbytes
decreasing_by simp only [REEFNET_SENSUSPRO_MEMORY_SIZE] at *; omega

/-- reefnet_sensuspro_device_dump: family guard, buffer preparation, wake
and send the dump command 0xB4, read the full image, verify its CRC
trailer, and hand the image back. -/
def reefnet_sensuspro_device_dump (abstract : Option Handle) (env : ReefEnv) :
    DcStatus × Option Handle × Option (List Nat) :=
  if !device_is_reefnet_sensuspro abstract then (.invalidargs, abstract, none)
  else
    match abstract with
    | some (.reefnet c st) =>
      if !env.allocOk then (.nomemory, abstract, none)
      else
        let r := reefnet_sensuspro_send st env
        if r.1 ≠ .success then (r.1, some (.reefnet c r.2), none)
        else
          let rcRead := reefnet_sensuspro_read_memory env.dumpReads 0 0
          if rcRead ≠ .success then (rcRead, some (.reefnet c r.2), none)
          else
            let answer := env.dumpBytes
            let crc := array_uint16_le answer REEFNET_SENSUSPRO_MEMORY_SIZE
            let ccrc := checksum_crc_ccitt_uint16
              (answer.take REEFNET_SENSUSPRO_MEMORY_SIZE)
            if crc ≠ ccrc then (.protocol, some (.reefnet c r.2), none)
            else (.success, some (.reefnet c r.2),
              some (answer.take REEFNET_SENSUSPRO_MEMORY_SIZE))
    | _ => (.invalidargs, abstract, none)

/-- reefnet_sensuspro_device_foreach: family guard, allocate a buffer,
dump the memory, extract the dives from it with the callback of the caller. -/
def reefnet_sensuspro_device_foreach (abstract : Option Handle) (env : ReefEnv)
    (cb : Option (Nat → Nat → Nat → Nat → Bool)) :
    DcStatus × Option Handle × List DiveCall :=
  if !device_is_reefnet_sensuspro abstract then (.invalidargs, abstract, [])
  else if !env.allocOk then (.nomemory, abstract, [])
  else
    let d := reefnet_sensuspro_device_dump abstract env
    match d with
    | (.success, h, some data) =>
      let r := reefnet_sensuspro_extract_dives h data cb
      (r.1, h, r.2)
    | (rc, h, _) => (rc, h, [])

/-- reefnet_sensuspro_device_write_interval: family guard, range check
1..127, wake and send command 0xB5, then write the interval byte. -/
def reefnet_sensuspro_device_write_interval (abstract : Option Handle)
    (env : ReefEnv) (interval : Nat) : DcStatus × Option Handle :=
  if !device_is_reefnet_sensuspro abstract then (.invalidargs, abstract)
  else if interval < 1 ∨ interval > 127 then (.invalidargs, abstract)
  else
    match abstract with
    | some (.reefnet c st) =>
      let r := reefnet_sensuspro_send st env
      if r.1 ≠ .success then (r.1, some (.reefnet c r.2))
      else if env.intervalRc ≠ (1 : Int) then
        (EXITCODE env.intervalRc, some (.reefnet c r.2))
      else (.success, some (.reefnet c r.2))
    | _ => (.invalidargs, abstract)

/-! ## Suunto Vyper2 backend -/

/-- Serial operations a vyper2 packet exchange performs, in order; the
trace makes visible what happened before a failure. -/
inductive SerialOp where
  | sleep (ms : Nat)
  | setRts (level : Nat)
  | write (bytes : List Nat)
  | read (count : Nat)
deriving DecidableEq, Repr

/-- Transport responses consumed by one vyper2 packet exchange. -/
structure PacketTransport where
  writeRc : Int
  readRc : Int
  answer : List Nat
deriving DecidableEq, Repr

/-- suunto_vyper2_device_packet: check the cancellation flag, settle,
raise RTS, write the command (exact count or transport classification),
drop RTS, read the answer (exact count or transport classification), then
validate header echo, embedded big-endian length + 4 framing bytes,
echoed parameter bytes, and the trailing XOR-8 checksum — each mismatch a
protocol error.  Returns the status and the trace of serial operations
performed.  Note the function performs no family guard of its own: it is
only reachable through the already-verified backend dispatch. -/
def suunto_vyper2_device_packet (abstract : Option Handle)
    (tr : PacketTransport) (command : List Nat) (csize asize size : Nat) :
    DcStatus × List SerialOp :=
  if device_is_cancelled abstract then (.cancelled, [])
  else
    let ops0 : List SerialOp :=
      [.sleep 600, .setRts 1, .write (command.take csize)]
    if tr.writeRc ≠ (csize : Int) then (EXITCODE tr.writeRc, ops0)
    else
      let ops1 : List SerialOp := ops0 ++ [.setRts 0, .read asize]
      if tr.readRc ≠ (asize : Int) then (EXITCODE tr.readRc, ops1)
      else
        let answer := tr.answer
        if byteAt answer 0 ≠ byteAt command 0 then (.protocol, ops1)
        else if array_uint16_be answer 1 + 4 ≠ asize then (.protocol, ops1)
        else if (command.drop 3).take (asize - size - 4) ≠
            (answer.drop 3).take (asize - size - 4) then (.protocol, ops1)
        else if byteAt answer (asize - 1) ≠
            checksum_xor_uint8 (answer.take (asize - 1)) 0 then (.protocol, ops1)
        else (.success, ops1)

/-- suunto_vyper2_device_close: family guard, then release the transport. -/
def suunto_vyper2_device_close (abstract : Option Handle) (closeRc : Int) :
    DcStatus :=
  if !device_is_suunto_vyper2 abstract then .invalidargs
  else if closeRc = -1 then .ioerr else .success

/-- suunto_vyper2_device_reset_maxdepth: family guard, then delegate to
the shared Suunto backend.  Modelled from the spec: the shared
suunto_common2 implementation is absent from the sources, so its result is
passed through as a parameter. -/
def suunto_vyper2_device_reset_maxdepth (abstract : Option Handle)
    (commonResult : DcStatus) : DcStatus :=
  if !device_is_suunto_vyper2 abstract then .invalidargs
  else commonResult

/-! ## Sample-flags bit layout (parser.h) -/

/-- SAMPLE_FLAGS_BEGIN: bit 0. -/
def SAMPLE_FLAGS_BEGIN : Nat := 1 <<< 0

/-- SAMPLE_FLAGS_END: bit 1. -/
def SAMPLE_FLAGS_END : Nat := 1 <<< 1

/-- SAMPLE_FLAGS_SEVERITY_SHIFT. -/
def SAMPLE_FLAGS_SEVERITY_SHIFT : Nat := 2

/-- SAMPLE_FLAGS_SEVERITY_MASK: three bits at the severity shift. -/
def SAMPLE_FLAGS_SEVERITY_MASK : Nat := 7 <<< SAMPLE_FLAGS_SEVERITY_SHIFT

/-- SAMPLE_FLAGS_TYPE_SHIFT. -/
def SAMPLE_FLAGS_TYPE_SHIFT : Nat := 5

/-- SAMPLE_FLAGS_TYPE_MASK: three bits at the type shift. -/
def SAMPLE_FLAGS_TYPE_MASK : Nat := 7 <<< SAMPLE_FLAGS_TYPE_SHIFT

/-- SAMPLE_FLAGS_SEVERITY_ALARM, the largest severity value (0..4). -/
def SAMPLE_FLAGS_SEVERITY_ALARM : Nat := 4 <<< SAMPLE_FLAGS_SEVERITY_SHIFT

/-- SAMPLE_FLAGS_TYPE_INJURY, the largest annotation type value (0..6). -/
def SAMPLE_FLAGS_TYPE_INJURY : Nat := 6 <<< SAMPLE_FLAGS_TYPE_SHIFT

/-- Modelled from the spec: packing of the event-flags word from its
components, following the bit layout of parser.h (begin bit 0, end bit 1,
severity in bits 2..4, annotation type in bits 5..7). -/
def packSampleFlags (hasBegin hasEnd : Bool) (severity ty : Nat) : Nat :=
  (if hasBegin then SAMPLE_FLAGS_BEGIN else 0) |||
  (if hasEnd then SAMPLE_FLAGS_END else 0) |||
  (severity <<< SAMPLE_FLAGS_SEVERITY_SHIFT) |||
  (ty <<< SAMPLE_FLAGS_TYPE_SHIFT)

/-- Modelled from the spec: the begin bit of a flags word. -/
def unpackFlagsBegin (w : Nat) : Bool := w &&& SAMPLE_FLAGS_BEGIN != 0

/-- Modelled from the spec: the end bit of a flags word. -/
def unpackFlagsEnd (w : Nat) : Bool := w &&& SAMPLE_FLAGS_END != 0

/-- Modelled from the spec: the severity field of a flags word. -/
def unpackFlagsSeverity (w : Nat) : Nat :=
  (w &&& SAMPLE_FLAGS_SEVERITY_MASK) >>> SAMPLE_FLAGS_SEVERITY_SHIFT

/-- Modelled from the spec: the annotation type field of a flags word. -/
def unpackFlagsType (w : Nat) : Nat :=
  (w &&& SAMPLE_FLAGS_TYPE_MASK) >>> SAMPLE_FLAGS_TYPE_SHIFT

/-! ## Bridges from the public entry point to the scan lemmas -/

theorem totalLen_reverse (l : List (List Nat)) :
    totalLen l.reverse = totalLen l := by
  simp [totalLen, List.map_reverse, List.sum_reverse]

theorem flattenRev_reverse (l : List (List Nat)) :
    flattenRev l.reverse = l.flatten := by
  simp [flattenRev]

theorem flatten_length_totalLen (l : List (List Nat)) :
    l.flatten.length = totalLen l := by
  simp [totalLen, List.length_flatten]

theorem extract_dives_run (abstract : Option Handle) (data : List Nat)
    (cb : Option (Nat → Nat → Nat → Nat → Bool))
    (hguard : (abstract.isSome && !device_is_reefnet_sensuspro abstract) = false) :
    reefnet_sensuspro_extract_dives abstract data cb =
      extractLoop data cb (reefnetTimestampOf abstract) data.length
        (data.length - 4) := by
  unfold reefnet_sensuspro_extract_dives
  rw [hguard]
  simp only [Bool.false_eq_true, if_false, init_current]

/-- Extraction over a buffer laid out oldest-first whose records none hit
the cutoff: everything is delivered newest-first. -/
theorem extract_flatten_all (cutoff : Option Nat) (recs : List (List Nat))
    (hwf : ∀ r ∈ recs, wfRec r = true)
    (hnh : ∀ r ∈ recs, cutoffHit cutoff (recTs r) = false) :
    extractLoop recs.flatten (some cbTrue) cutoff recs.flatten.length
        (recs.flatten.length - 4) =
      (.success, callsFrom recs.reverse (totalLen recs)) := by
  have h := extract_full cutoff recs.reverse
    (fun r hr => hwf r (List.mem_reverse.mp hr))
    (fun r hr => hnh r (List.mem_reverse.mp hr))
  rw [flattenRev_reverse, totalLen_reverse] at h
  rw [flatten_length_totalLen]
  exact h

/-! ## Concrete records used as witnesses -/

/-- Well-formed 13-byte record with timestamp 100. -/
def exRecA : List Nat := [0, 0, 0, 0, 1, 2, 100, 0, 0, 0, 3, 255, 255]

/-- Well-formed 13-byte record with timestamp 200. -/
def exRecB : List Nat := [0, 0, 0, 0, 1, 2, 200, 0, 0, 0, 3, 255, 255]

/-! ## Claims -/

/-- C1: For every buffer containing N well-formed dive records with
strictly increasing timestamps from oldest to newest placed in increasing
offset order, extraction with no fingerprint cutoff (a freshly opened
handle, whose cutoff timestamp is 0) and a callback that always continues
invokes the callback exactly N times, in decreasing-offset (newest-first)
order, each invocation receiving the correct byte range of the record and its
correct 4-byte timestamp range, and returns success. -/
theorem reefnet_extract_all_newest_first (recs : List (List Nat))
    (hwf : ∀ r ∈ recs, wfRec r = true)
    (hinc : List.Pairwise (fun a b => recTs a < recTs b) recs) :
    reefnet_sensuspro_extract_dives (some (.reefnet false reefnetFresh))
        recs.flatten (some cbTrue) =
      (.success, callsFrom recs.reverse (totalLen recs)) ∧
    (callsFrom recs.reverse (totalLen recs)).length = recs.length := by
  constructor
  · rw [extract_dives_run _ _ _ (by rfl)]
    have hnh : ∀ r ∈ recs, cutoffHit (some reefnetFresh.timestamp) (recTs r) = false := by
      intro r hr
      have := wfRec_ts_pos (hwf r hr)
      simp only [cutoffHit, reefnetFresh, decide_eq_false_iff_not]
      omega
    exact extract_flatten_all _ recs hwf hnh
  · rw [callsFrom_length, List.length_reverse]

/-- Witness for C1: a concrete two-record buffer with increasing
timestamps 100, 200 satisfies the hypotheses, and the records come back
newest-first. -/
theorem reefnet_extract_all_newest_first_witness :
    (∀ r ∈ [exRecA, exRecB], wfRec r = true) ∧
    List.Pairwise (fun a b => recTs a < recTs b) [exRecA, exRecB] ∧
    reefnet_sensuspro_extract_dives (some (.reefnet false reefnetFresh))
        ([exRecA, exRecB]).flatten (some cbTrue) =
      (.success, callsFrom ([exRecA, exRecB]).reverse (totalLen [exRecA, exRecB])) :=
  ⟨by decide, by decide,
    (reefnet_extract_all_newest_first [exRecA, exRecB] (by decide) (by decide)).1⟩

/-- C5: After set_fingerprint is called with an empty fingerprint
(size 0), extraction extracts everything: for every buffer of well-formed
records the callback is invoked for every record, none excluded by the
cutoff check.  (Well-formedness forces every embedded timestamp to be
nonzero: an all-zero timestamp would itself be a false start marker.) -/
theorem reefnet_extract_empty_fingerprint (recs : List (List Nat))
    (hwf : ∀ r ∈ recs, wfRec r = true) :
    reefnet_sensuspro_extract_dives
        (reefnet_sensuspro_device_set_fingerprint
          (some (.reefnet false reefnetFresh)) [] 0).2
        recs.flatten (some cbTrue) =
      (.success, callsFrom recs.reverse (totalLen recs)) ∧
    (callsFrom recs.reverse (totalLen recs)).length = recs.length := by
  have hdev : (reefnet_sensuspro_device_set_fingerprint
      (some (.reefnet false reefnetFresh)) [] 0).2 =
      some (.reefnet false { reefnetFresh with timestamp := 0 }) := by rfl
  rw [hdev]
  constructor
  · rw [extract_dives_run _ _ _ (by rfl)]
    have hnh : ∀ r ∈ recs, cutoffHit (some 0) (recTs r) = false := by
      intro r hr
      have := wfRec_ts_pos (hwf r hr)
      simp only [cutoffHit, decide_eq_false_iff_not]
      omega
    exact extract_flatten_all _ recs hwf hnh
  · rw [callsFrom_length, List.length_reverse]

/-- Witness for C5: the two-record buffer is fully delivered after an
empty set_fingerprint. -/
theorem reefnet_extract_empty_fingerprint_witness :
    (∀ r ∈ [exRecA, exRecB], wfRec r = true) ∧
    reefnet_sensuspro_extract_dives
        (reefnet_sensuspro_device_set_fingerprint
          (some (.reefnet false reefnetFresh)) [] 0).2
        ([exRecA, exRecB]).flatten (some cbTrue) =
      (.success, callsFrom ([exRecA, exRecB]).reverse (totalLen [exRecA, exRecB])) :=
  ⟨by decide, (reefnet_extract_empty_fingerprint [exRecA, exRecB] (by decide)).1⟩

/-- C10: reefnet_sensuspro_extract_dives accepts a NULL device handle:
with `abstract = NULL` the family guard is skipped rather than failing, no
fingerprint cutoff is applied (every well-formed record is delivered to
the callback regardless of its timestamp), and the function returns
success on a well-formed buffer. -/
theorem reefnet_extract_null_device (recs : List (List Nat))
    (hwf : ∀ r ∈ recs, wfRec r = true) :
    reefnet_sensuspro_extract_dives none recs.flatten (some cbTrue) =
      (.success, callsFrom recs.reverse (totalLen recs)) ∧
    (callsFrom recs.reverse (totalLen recs)).length = recs.length := by
  constructor
  · rw [extract_dives_run _ _ _ (by rfl)]
    exact extract_flatten_all none recs hwf (fun r _ => rfl)
  · rw [callsFrom_length, List.length_reverse]

/-- Witness for C10: the two-record buffer is fully delivered through a
NULL handle. -/
theorem reefnet_extract_null_device_witness :
    (∀ r ∈ [exRecA, exRecB], wfRec r = true) ∧
    reefnet_sensuspro_extract_dives none ([exRecA, exRecB]).flatten (some cbTrue) =
      (.success, callsFrom ([exRecA, exRecB]).reverse (totalLen [exRecA, exRecB])) :=
  ⟨by decide, (reefnet_extract_null_device [exRecA, exRecB] (by decide)).1⟩

/-! ## Claim C4: the two-record example buffer -/

/-- Record of the example scenario: zero header, 6 further bytes,
timestamp-100 little-endian word, one pad byte, footer (17 bytes). -/
def c4rec100 : List Nat := [0, 0, 0, 0, 9, 8, 7, 6, 5, 4, 100, 0, 0, 0, 3, 255, 255]

/-- Record of the example scenario with the timestamp-50 word. -/
def c4rec50 : List Nat := [0, 0, 0, 0, 9, 8, 7, 6, 5, 4, 50, 0, 0, 0, 3, 255, 255]

/-- Evaluation of the extraction on the example buffer: the higher-offset
(timestamp-50) record is delivered first, then the timestamp-100 record. -/
theorem c4_eval :
    reefnet_sensuspro_extract_dives none (c4rec100 ++ c4rec50) (some cbTrue) =
      (.success, [(17, 17, 23, 4), (0, 17, 6, 4)]) := by
  rw [show c4rec100 ++ c4rec50 = ([c4rec100, c4rec50]).flatten by decide]
  rw [extract_dives_run _ _ _ (by rfl)]
  have h := extract_flatten_all none [c4rec100, c4rec50] (by decide) (fun r _ => rfl)
  simp only [reefnetTimestampOf]
  rw [h]
  decide

/-- C4, counterexample: the claim as stated — the timestamp-100 record
(the one at offset 0) reported first, then the timestamp-50 record — is
false on this buffer: the scan is backward, so the higher-offset record
comes first. -/
theorem reefnet_extract_example_order_counterexample :
    ¬ (reefnet_sensuspro_extract_dives none (c4rec100 ++ c4rec50)
        (some cbTrue)).2 = [(0, 17, 6, 4), (17, 17, 23, 4)] := by
  rw [c4_eval]
  decide

/-- C4, amended: on the buffer of the example scenario (timestamp-100
record directly followed by the timestamp-50 record), extraction with no
fingerprint cutoff reports the timestamp-50 record first and then the
timestamp-100 record, each with its byte range and fingerprint range, and
succeeds. -/
theorem reefnet_extract_example_order_amended :
    reefnet_sensuspro_extract_dives none (c4rec100 ++ c4rec50) (some cbTrue) =
      (.success, [(17, 17, 23, 4), (0, 17, 6, 4)]) :=
  c4_eval

/-- C6: if during extraction a start marker is found but no 0xFFFF footer
occurs in the forward scan before reaching the search bound (here the
buffer end, the first-record case), extraction returns DataFormatError
and the callback is never invoked. -/
theorem reefnet_extract_missing_footer (data : List Nat)
    (hlen : 12 ≤ data.length)
    (hhdr : headerAt data 0 = true)
    (hnf : ∀ p, 10 ≤ p → p + 2 ≤ data.length → footerAt data p = false) :
    reefnet_sensuspro_extract_dives none data (some cbTrue) =
      (.dataformat, []) := by
  rw [extract_dives_run _ _ _ (by rfl)]
  exact extractLoop_nofooter data (some cbTrue) (reefnetTimestampOf none)
    data.length hnf (data.length - 4) ⟨0, by omega, hhdr⟩

/-- Witness for C6: a 12-byte buffer with the start marker and no footer
bytes at all yields the data-format error and no callback invocation. -/
theorem reefnet_extract_missing_footer_witness :
    12 ≤ ([0, 0, 0, 0, 1, 2, 100, 0, 0, 0, 3, 9] : List Nat).length ∧
    headerAt [0, 0, 0, 0, 1, 2, 100, 0, 0, 0, 3, 9] 0 = true ∧
    reefnet_sensuspro_extract_dives none [0, 0, 0, 0, 1, 2, 100, 0, 0, 0, 3, 9]
        (some cbTrue) = (.dataformat, []) :=
  ⟨by decide, by decide,
    reefnet_extract_missing_footer [0, 0, 0, 0, 1, 2, 100, 0, 0, 0, 3, 9]
      (by decide) (by decide)
      (by
        intro p hp1 hp2
        have hl : ([0, 0, 0, 0, 1, 2, 100, 0, 0, 0, 3, 9] : List Nat).length = 12 := rfl
        rw [hl] at hp2
        have hp : p = 10 := by omega
        subst hp
        decide)⟩

/-- C2: with a fingerprint cutoff equal to the timestamp of record `k`
(records listed newest-first with strictly decreasing timestamps, as the
strictly-increasing-by-offset convention has it), set via set_fingerprint
with a 4-byte value, extraction scans most-recent-first, stops on record
`k`, returns success, and has invoked the callback exactly for the records
with offset greater than the offset of record `k` — not record `k` nor anything
older. -/
theorem reefnet_extract_fingerprint_cutoff (rrecs : List (List Nat)) (k : Nat)
    (hk : k < rrecs.length)
    (hwf : ∀ r ∈ rrecs, wfRec r = true)
    (hdec : List.Pairwise (fun a b => recTs b < recTs a) rrecs)
    (fp : List Nat)
    (hfp : array_uint32_le fp 0 = recTs (rrecs.getD k [])) :
    reefnet_sensuspro_extract_dives
        (reefnet_sensuspro_device_set_fingerprint
          (some (.reefnet false reefnetFresh)) fp 4).2
        (flattenRev rrecs) (some cbTrue) =
      (.success, callsFrom (rrecs.take k) (totalLen rrecs)) := by
  have hdev : (reefnet_sensuspro_device_set_fingerprint
      (some (.reefnet false reefnetFresh)) fp 4).2 =
      some (.reefnet false { reefnetFresh with timestamp := array_uint32_le fp 0 }) := by
    rfl
  rw [hdev, extract_dives_run _ _ _ (by rfl)]
  simp only [reefnetTimestampOf]
  rw [hfp, List.getD_eq_getElem _ _ hk]
  have hsplit : rrecs = rrecs.take k ++ rrecs[k] :: rrecs.drop (k + 1) := by
    conv_lhs => rw [← List.take_append_drop k rrecs]
    rw [List.drop_eq_getElem_cons hk]
  have hpw := List.pairwise_iff_getElem.mp hdec
  have hnh : ∀ r ∈ rrecs.take k,
      cutoffHit (some (recTs rrecs[k])) (recTs r) = false := by
    intro r hr
    obtain ⟨j, hj, hje⟩ := List.mem_take_iff_getElem.mp hr
    have hjk : j < k := by omega
    have hjl : j < rrecs.length := by omega
    have hlt := hpw j k hjl hk hjk
    rw [← hje]
    simp only [cutoffHit, decide_eq_false_iff_not]
    omega
  have hstop := extract_full_stop (some (recTs rrecs[k])) (rrecs.take k) rrecs[k]
    (rrecs.drop (k + 1))
    (fun r hr => hwf r (List.mem_of_mem_take hr)) hnh
    (hwf _ (List.getElem_mem hk))
    (by simp [cutoffHit])
  rw [← hsplit] at hstop
  rw [flattenRev_length]
  exact hstop

/-- Witness for C2: two records newest-first with timestamps 200, 100; the
cutoff is the 4-byte fingerprint of the older record (k = 1), so exactly
the newest record is delivered. -/
theorem reefnet_extract_fingerprint_cutoff_witness :
    1 < ([exRecB, exRecA] : List (List Nat)).length ∧
    array_uint32_le [100, 0, 0, 0] 0 = recTs (([exRecB, exRecA]).getD 1 []) ∧
    reefnet_sensuspro_extract_dives
        (reefnet_sensuspro_device_set_fingerprint
          (some (.reefnet false reefnetFresh)) [100, 0, 0, 0] 4).2
        (flattenRev [exRecB, exRecA]) (some cbTrue) =
      (.success, callsFrom (([exRecB, exRecA]).take 1) (totalLen [exRecB, exRecA])) :=
  ⟨by decide, by decide,
    reefnet_extract_fingerprint_cutoff [exRecB, exRecA] 1 (by decide) (by decide)
      (by decide) [100, 0, 0, 0] (by decide)⟩

/-- C3: in one packet exchange, each of the three response-validation
failures in isolation — (a) first byte differing from the first byte of the
command, (b) the big-endian length field at offset 1 plus the framing
overhead 4 disagreeing with the response size, (c) the final byte
differing from the XOR-8 checksum (seed 0) of all preceding bytes —
yields ProtocolError and never IOError/Timeout; a transport write or read
returning the distinguished hard-failure value -1 yields IOError and any
other short byte count yields Timeout. -/
theorem vyper2_packet_error_classes :
    (∀ (tr : PacketTransport) (command : List Nat) (csize asize size : Nat),
      tr.writeRc ≠ (csize : Int) →
      (suunto_vyper2_device_packet (some (.vyper2 false)) tr command
        csize asize size).1 =
        (if tr.writeRc = -1 then .ioerr else .timeout)) ∧
    (∀ (tr : PacketTransport) (command : List Nat) (csize asize size : Nat),
      tr.writeRc = (csize : Int) → tr.readRc ≠ (asize : Int) →
      (suunto_vyper2_device_packet (some (.vyper2 false)) tr command
        csize asize size).1 =
        (if tr.readRc = -1 then .ioerr else .timeout)) ∧
    (∀ (tr : PacketTransport) (command : List Nat) (csize asize size : Nat),
      tr.writeRc = (csize : Int) → tr.readRc = (asize : Int) →
      byteAt tr.answer 0 ≠ byteAt command 0 →
      array_uint16_be tr.answer 1 + 4 = asize →
      byteAt tr.answer (asize - 1) =
        checksum_xor_uint8 (tr.answer.take (asize - 1)) 0 →
      (suunto_vyper2_device_packet (some (.vyper2 false)) tr command
        csize asize size).1 = .protocol) ∧
    (∀ (tr : PacketTransport) (command : List Nat) (csize asize size : Nat),
      tr.writeRc = (csize : Int) → tr.readRc = (asize : Int) →
      byteAt tr.answer 0 = byteAt command 0 →
      array_uint16_be tr.answer 1 + 4 ≠ asize →
      byteAt tr.answer (asize - 1) =
        checksum_xor_uint8 (tr.answer.take (asize - 1)) 0 →
      (suunto_vyper2_device_packet (some (.vyper2 false)) tr command
        csize asize size).1 = .protocol) ∧
    (∀ (tr : PacketTransport) (command : List Nat) (csize asize size : Nat),
      tr.writeRc = (csize : Int) → tr.readRc = (asize : Int) →
      byteAt tr.answer 0 = byteAt command 0 →
      array_uint16_be tr.answer 1 + 4 = asize →
      (command.drop 3).take (asize - size - 4) =
        (tr.answer.drop 3).take (asize - size - 4) →
      byteAt tr.answer (asize - 1) ≠
        checksum_xor_uint8 (tr.answer.take (asize - 1)) 0 →
      (suunto_vyper2_device_packet (some (.vyper2 false)) tr command
        csize asize size).1 = .protocol) := by
  refine ⟨?_, ?_, ?_, ?_, ?_⟩
  · intro tr command csize asize size hw
    simp [suunto_vyper2_device_packet, device_is_cancelled, hw, EXITCODE]
  · intro tr command csize asize size hw hr
    simp [suunto_vyper2_device_packet, device_is_cancelled, hw, hr, EXITCODE]
  · intro tr command csize asize size hw hr hhdr hl hc
    simp [suunto_vyper2_device_packet, device_is_cancelled, hw, hr, hhdr]
  · intro tr command csize asize size hw hr hhdr hl hc
    simp [suunto_vyper2_device_packet, device_is_cancelled, hw, hr, hhdr, hl]
  · intro tr command csize asize size hw hr hhdr hl hp hc
    simp [suunto_vyper2_device_packet, device_is_cancelled, hw, hr, hhdr, hl, hp, hc]

/-- Witness for C3: concrete exchanges with command 05 09 09, expected
answer size 4 and payload size 0, hitting each classification. -/
theorem vyper2_packet_error_classes_witness :
    (suunto_vyper2_device_packet (some (.vyper2 false)) ⟨-1, 4, [5, 0, 0, 5]⟩
      [5, 9, 9] 3 4 0).1 = .ioerr ∧
    (suunto_vyper2_device_packet (some (.vyper2 false)) ⟨2, 4, [5, 0, 0, 5]⟩
      [5, 9, 9] 3 4 0).1 = .timeout ∧
    (suunto_vyper2_device_packet (some (.vyper2 false)) ⟨3, -1, [5, 0, 0, 5]⟩
      [5, 9, 9] 3 4 0).1 = .ioerr ∧
    (suunto_vyper2_device_packet (some (.vyper2 false)) ⟨3, 2, [5, 0, 0, 5]⟩
      [5, 9, 9] 3 4 0).1 = .timeout ∧
    (suunto_vyper2_device_packet (some (.vyper2 false)) ⟨3, 4, [6, 0, 0, 6]⟩
      [5, 9, 9] 3 4 0).1 = .protocol ∧
    (suunto_vyper2_device_packet (some (.vyper2 false)) ⟨3, 4, [5, 1, 0, 4]⟩
      [5, 9, 9] 3 4 0).1 = .protocol ∧
    (suunto_vyper2_device_packet (some (.vyper2 false)) ⟨3, 4, [5, 0, 0, 7]⟩
      [5, 9, 9] 3 4 0).1 = .protocol := by
  obtain ⟨h1, h2, h3, h4, h5⟩ := vyper2_packet_error_classes
  refine ⟨?_, ?_, ?_, ?_, ?_, ?_, ?_⟩
  · simpa using h1 ⟨-1, 4, [5, 0, 0, 5]⟩ [5, 9, 9] 3 4 0 (by decide)
  · simpa using h1 ⟨2, 4, [5, 0, 0, 5]⟩ [5, 9, 9] 3 4 0 (by decide)
  · simpa using h2 ⟨3, -1, [5, 0, 0, 5]⟩ [5, 9, 9] 3 4 0 (by decide) (by decide)
  · simpa using h2 ⟨3, 2, [5, 0, 0, 5]⟩ [5, 9, 9] 3 4 0 (by decide) (by decide)
  · exact h3 ⟨3, 4, [6, 0, 0, 6]⟩ [5, 9, 9] 3 4 0 (by decide) (by decide)
      (by decide) (by decide) (by decide)
  · exact h4 ⟨3, 4, [5, 1, 0, 4]⟩ [5, 9, 9] 3 4 0 (by decide) (by decide)
      (by decide) (by decide) (by decide)
  · exact h5 ⟨3, 4, [5, 0, 0, 7]⟩ [5, 9, 9] 3 4 0 (by decide) (by decide)
      (by decide) (by decide) (by decide) (by decide)

/-- C7: if the cooperative cancellation flag of the handle is set when the
exchange begins, suunto_vyper2_device_packet returns Cancelled
immediately, before any bytes are written and before any transport line
is toggled (empty serial-operation trace). -/
theorem vyper2_packet_cancelled_before_send (h : Handle) (tr : PacketTransport)
    (command : List Nat) (csize asize size : Nat)
    (hc : device_is_cancelled (some h) = true) :
    suunto_vyper2_device_packet (some h) tr command csize asize size =
      (.cancelled, []) := by
  unfold suunto_vyper2_device_packet
  rw [hc]
  simp

/-- Witness for C7: a cancelled vyper2 handle aborts with an empty trace. -/
theorem vyper2_packet_cancelled_before_send_witness :
    device_is_cancelled (some (.vyper2 true)) = true ∧
    suunto_vyper2_device_packet (some (.vyper2 true)) ⟨0, 0, []⟩ [] 0 0 0 =
      (.cancelled, []) :=
  ⟨by decide, vyper2_packet_cancelled_before_send (.vyper2 true) ⟨0, 0, []⟩ [] 0 0 0
    (by decide)⟩

/-- Fixed environment used by the guard witnesses. -/
def envZero : ReefEnv :=
  ⟨0, [], 0, 0, 0, fun _ => 0, [], 0, true⟩

/-- C8, counterexample: contrary to the claim, suunto_vyper2_device_packet
performs no family guard — invoked on a handle of the reefnet family it
proceeds to the exchange (here failing with a hard transport error, not
InvalidArgument). -/
theorem device_family_guard_counterexample :
    (suunto_vyper2_device_packet (some (.reefnet false reefnetFresh))
      ⟨-1, -1, []⟩ [] 0 0 0).1 ≠ .invalidargs := by
  decide

/-- C8, amended: every device operation of the two backends except the
packet function — set_fingerprint, set_timestamp, get_handshake, dump,
foreach, close and write_interval of the reefnet backend, close and
reset_maxdepth of the vyper2 backend — returns InvalidArgument when
invoked on a handle that is NULL or whose backend table reference is not
that of the family of the operation, with no effect on the handle; the packet
function performs only the cancellation check, being reachable only
through the already-verified dispatch. -/
theorem device_family_guard_amended :
    (∀ (h : Option Handle) (data : List Nat) (size : Nat),
      device_is_reefnet_sensuspro h = false →
      reefnet_sensuspro_device_set_fingerprint h data size = (.invalidargs, h)) ∧
    (∀ (h : Option Handle) (t : Nat),
      device_is_reefnet_sensuspro h = false →
      reefnet_sensuspro_device_set_timestamp h t = (.invalidargs, h)) ∧
    (∀ (h : Option Handle) (size : Nat),
      device_is_reefnet_sensuspro h = false →
      reefnet_sensuspro_device_get_handshake h size = (.invalidargs, none)) ∧
    (∀ (h : Option Handle) (env : ReefEnv),
      device_is_reefnet_sensuspro h = false →
      reefnet_sensuspro_device_close h env = .invalidargs) ∧
    (∀ (h : Option Handle) (env : ReefEnv),
      device_is_reefnet_sensuspro h = false →
      reefnet_sensuspro_device_dump h env = (.invalidargs, h, none)) ∧
    (∀ (h : Option Handle) (env : ReefEnv)
        (cb : Option (Nat → Nat → Nat → Nat → Bool)),
      device_is_reefnet_sensuspro h = false →
      reefnet_sensuspro_device_foreach h env cb = (.invalidargs, h, [])) ∧
    (∀ (h : Option Handle) (env : ReefEnv) (interval : Nat),
      device_is_reefnet_sensuspro h = false →
      reefnet_sensuspro_device_write_interval h env interval = (.invalidargs, h)) ∧
    (∀ (h : Option Handle) (rc : Int),
      device_is_suunto_vyper2 h = false →
      suunto_vyper2_device_close h rc = .invalidargs) ∧
    (∀ (h : Option Handle) (r : DcStatus),
      device_is_suunto_vyper2 h = false →
      suunto_vyper2_device_reset_maxdepth h r = .invalidargs) := by
  refine ⟨?_, ?_, ?_, ?_, ?_, ?_, ?_, ?_, ?_⟩
  · intro h data size hg
    simp [reefnet_sensuspro_device_set_fingerprint, hg]
  · intro h t hg
    simp [reefnet_sensuspro_device_set_timestamp, hg]
  · intro h size hg
    simp [reefnet_sensuspro_device_get_handshake, hg]
  · intro h env hg
    simp [reefnet_sensuspro_device_close, hg]
  · intro h env hg
    simp [reefnet_sensuspro_device_dump, hg]
  · intro h env cb hg
    simp [reefnet_sensuspro_device_foreach, hg]
  · intro h env interval hg
    simp [reefnet_sensuspro_device_write_interval, hg]
  · intro h rc hg
    simp [suunto_vyper2_device_close, hg]
  · intro h r hg
    simp [suunto_vyper2_device_reset_maxdepth, hg]

/-- Witness for C8 (amended): a NULL handle and a handle of the wrong
family are rejected by each guarded operation. -/
theorem device_family_guard_amended_witness :
    reefnet_sensuspro_device_set_fingerprint (some (.vyper2 false)) [1, 2, 3, 4] 4 =
      (.invalidargs, some (.vyper2 false)) ∧
    reefnet_sensuspro_device_set_timestamp none 5 = (.invalidargs, none) ∧
    reefnet_sensuspro_device_get_handshake (some (.vyper2 false)) 10 =
      (.invalidargs, none) ∧
    reefnet_sensuspro_device_close none envZero = .invalidargs ∧
    reefnet_sensuspro_device_dump (some (.vyper2 false)) envZero =
      (.invalidargs, some (.vyper2 false), none) ∧
    reefnet_sensuspro_device_foreach none envZero (some cbTrue) =
      (.invalidargs, none, []) ∧
    reefnet_sensuspro_device_write_interval (some (.vyper2 false)) envZero 10 =
      (.invalidargs, some (.vyper2 false)) ∧
    suunto_vyper2_device_close (some (.reefnet false reefnetFresh)) 0 =
      .invalidargs ∧
    suunto_vyper2_device_reset_maxdepth none .success = .invalidargs := by
  obtain ⟨h1, h2, h3, h4, h5, h6, h7, h8, h9⟩ := device_family_guard_amended
  exact ⟨h1 _ _ _ (by decide), h2 _ _ (by decide), h3 _ _ (by decide),
    h4 _ _ (by decide), h5 _ _ (by decide), h6 _ _ _ (by decide),
    h7 _ _ _ (by decide), h8 _ _ (by decide), h9 _ _ (by decide)⟩

/-- C9: packing event flags (begin bit 0, end bit 1, severity in bits
2..4, annotation type in bits 5..7) into one word and unpacking the word
reproduces every component exactly, for every combination of the two
booleans, severity 0..4 and annotation type 0..6. -/
theorem sample_flags_roundtrip :
    ∀ (hasBegin hasEnd : Bool) (severity : Fin 5) (ty : Fin 7),
      unpackFlagsBegin (packSampleFlags hasBegin hasEnd severity ty) = hasBegin ∧
      unpackFlagsEnd (packSampleFlags hasBegin hasEnd severity ty) = hasEnd ∧
      unpackFlagsSeverity (packSampleFlags hasBegin hasEnd severity ty) = severity ∧
      unpackFlagsType (packSampleFlags hasBegin hasEnd severity ty) = ty := by
  decide
